import Mathlib

/-!
ParamGuard rule-evaluation engine: a shallow embedding.

This file embeds the rule-evaluation core of the `paramguard` scanner
(package `scanner`: `parser.go`, `rules.go`, `types.go`) in Lean 4 and
proves properties of it.

Modelling notes:
 - Go's dynamically typed configuration values (`interface{}` as produced
   by the JSON/YAML/TOML/env parsers) are modelled by the inductive type
   `Value`: string, number, boolean, null, sequence, mapping.
 - Go's `map[string]interface{}` is modelled as an association list
   `List (String × Value)`; iteration order of the model is list order
   (Go map iteration order is unspecified; all order-sensitive results
   proved here are order-independent or quantify over the given list).
 - All Go numeric runtime types (`float64`, `float32`, `int`, `int64`)
   are collapsed into `Value.num : Rat`; `Check.Min`/`Check.Max`
   (`float64` in Go) are likewise `Rat`. The properties proved here
   depend only on ordered-field comparisons and on the zero test, never
   on floating-point rounding, so `Rat` is an adequate model.
 - `regexp.MatchString` is treated as an abstract total predicate
   `matchString : String → String → Bool`, passed as a parameter; no
   property proved here depends on the semantics of regular expressions,
   and theorems quantify over every possible matcher.
 - Go's `fmt.Sprintf("%v", x)` stringification is modelled by
   `formatValue`; the rendering of rationals differs textually from Go's
   float rendering, but the renderings used in equality comparisons here
   agree on the inputs exercised.
 - Go's `len` on strings counts bytes; `String.length` counts
   characters. All concrete strings used below are ASCII, where the two
   coincide.
-/

namespace ParamGuard

/-- A dynamically-typed configuration value (Go `interface{}` as produced
by the config parsers): string, number, boolean, null, ordered sequence,
or nested mapping. -/
inductive Value : Type where
  | str (s : String) : Value
  | num (q : Rat) : Value
  | bool (b : Bool) : Value
  | null : Value
  | seq (l : List Value) : Value
  | map (m : List (String × Value)) : Value
deriving Repr

/-- Embeds `types.go` `Condition`: one sub-condition of a combined check. -/
structure Condition : Type where
  parameter : String
  operator : String
  value : Value
deriving Repr

/-- Embeds `types.go` `Check`: the detection logic of a rule. Go's omitted/zero
YAML fields correspond to `""`, `[]`, `0`, `Value.null`. -/
structure Check : Type where
  type : String := ""
  parameter : String := ""
  parameters : List String := []
  field : String := ""
  fields : List String := []
  patterns : List String := []
  operator : String := ""
  value : Value := Value.null
  min : Rat := 0
  max : Rat := 0
  condition : String := ""
  conditions : List Condition := []
  require : String := ""
  hasAny : List String := []
  missingAll : List String := []
  values : List Value := []
  maxSequences : Nat := 0
  maxLength : Nat := 0
deriving Repr

/-- Embeds `types.go` `Rule`: a single security rule. -/
structure Rule : Type where
  id : String := ""
  name : String := ""
  severity : String := ""
  category : String := ""
  description : String := ""
  check : Check := {}
  recommendation : String := ""
  references : List String := []
  fields : List String := []
deriving Repr

/-- Embeds `types.go` `Finding`: a security issue found. -/
structure Finding : Type where
  ruleId : String
  name : String
  severity : String
  category : String
  description : String
  location : String
  recommendation : String
  references : List String
deriving Repr, DecidableEq

/-- Embeds `types.go` `Config`: a parsed configuration. -/
structure Config : Type where
  data : List (String × Value)
  filePath : String := ""
deriving Repr

mutual

/-- Embeds `parser.go` `hasFieldRecursive` applied to one value: recurse when it
is a nested mapping, otherwise the value holds no keys. -/
def hasFieldV (field : String) : Value → Bool
  | .map m => hasFieldM field m
  | _ => false

/-- Embeds `parser.go` `hasFieldRecursive`: for each entry, the key matches, or
the value is a nested mapping containing the key. -/
def hasFieldM (field : String) : List (String × Value) → Bool
  | [] => false
  | (k, v) :: rest => k == field || hasFieldV field v || hasFieldM field rest

end

/-- Embeds `parser.go` `Config.HasField`: does a field exist anywhere in the
config (descending only through nested mappings)? -/
def Config.HasField (c : Config) (field : String) : Bool :=
  hasFieldM field c.data

mutual

/-- Embeds `parser.go` `collectFieldValues` applied to one value. -/
def collectV (field : String) : Value → List Value
  | .map m => collectM field m
  | _ => []

/-- Embeds `parser.go` `collectFieldValues`: collect, in iteration order, every
value stored under a key equal to `field`, recursing into nested
mappings. -/
def collectM (field : String) : List (String × Value) → List Value
  | [] => []
  | (k, v) :: rest =>
      (if k == field then [v] else []) ++ collectV field v ++ collectM field rest

end

/-- Embeds `parser.go` `Config.GetAllFieldValues`. -/
def Config.GetAllFieldValues (c : Config) (field : String) : List Value :=
  collectM field c.data

mutual

/-- Embeds `parser.go` `collectContent` applied to one value: strings contribute
themselves plus a space; nested mappings recurse; sequences contribute
their string elements; other values contribute nothing. -/
def contentV : Value → String
  | .str s => s ++ " "
  | .map m => contentM m
  | .seq l => contentSeq l
  | _ => ""

def contentM : List (String × Value) → String
  | [] => ""
  | (_, v) :: rest => contentV v ++ contentM rest

def contentSeq : List Value → String
  | [] => ""
  | .str s :: rest => s ++ " " ++ contentSeq rest
  | _ :: rest => contentSeq rest

end

/-- Embeds `parser.go` `Config.GetAllContent`. -/
def Config.GetAllContent (c : Config) : String :=
  contentM c.data

/-- Rendering of a rational, standing in for Go's rendering of its
numeric types under the `%v` verb. Injective on `Rat`, which is all the
equality comparisons below rely on. -/
def formatRat (q : Rat) : String :=
  if q.den == 1 then toString q.num else toString q.num ++ "/" ++ toString q.den

mutual

/-- Models Go `fmt.Sprintf("%v", val)` on a dynamic value: strings render
as themselves, booleans as `true`/`false`, `nil` as `<nil>`, sequences
space-joined in brackets, mappings with `map[` prefix. -/
def formatValue : Value → String
  | .str s => s
  | .num q => formatRat q
  | .bool true => "true"
  | .bool false => "false"
  | .null => "<nil>"
  | .seq l => "[" ++ formatValueList l ++ "]"
  | .map m => "map[" ++ formatEntryList m ++ "]"

def formatValueList : List Value → String
  | [] => ""
  | [v] => formatValue v
  | v :: rest => formatValue v ++ " " ++ formatValueList rest

def formatEntryList : List (String × Value) → String
  | [] => ""
  | [(k, v)] => k ++ ":" ++ formatValue v
  | (k, v) :: rest => k ++ ":" ++ formatValue v ++ " " ++ formatEntryList rest

end

/-- Embeds `rules.go` `toFloat`: the numeric Go runtime types (`float64`,
`float32`, `int`, `int64`) coerce; everything else fails. In the model
all of these are `Value.num`. -/
def toFloat : Value → Option Rat
  | .num q => some q
  | _ => none

/-- Embeds `rules.go` `checkSingleNumeric`, body of the per-candidate loop: a
non-numeric candidate is skipped; a numeric one violates if it falls
outside `[Min, Max]` when at least one bound is non-zero, or, under
`Condition = "any_value_exceeds"`, whenever it falls outside `[Min, Max]`. -/
def numericViolates (check : Check) : Value → Bool
  | .num n =>
      decide ((check.min ≠ 0 ∨ check.max ≠ 0) ∧ (n < check.min ∨ n > check.max)) ||
      decide (check.condition = "any_value_exceeds" ∧ (n < check.min ∨ n > check.max))
  | _ => false

/-- Embeds `rules.go` `checkSingleNumeric`: first violating candidate wins, with
the parameter name as location. -/
def checkSingleNumeric (param : String) (check : Check) (config : Config) :
    Bool × String :=
  let values := config.GetAllFieldValues param
  if values.isEmpty then (false, "")
  else if values.any (numericViolates check) then (true, param)
  else (false, "")

/-- Embeds `rules.go` `checkNumericRange`, loop over `Check.Parameters`: first
violating parameter wins. -/
def firstNumericViolation (check : Check) (config : Config) :
    List String → Bool × String
  | [] => (false, "")
  | p :: rest =>
      match checkSingleNumeric p check config with
      | (true, loc) => (true, loc)
      | (false, _) => firstNumericViolation check config rest

/-- Embeds `rules.go` `checkNumericRange`: a non-empty single `Parameter` takes
precedence; otherwise each of `Parameters` is tried in order. -/
def checkNumericRange (rule : Rule) (config : Config) : Bool × String :=
  if rule.check.parameter ≠ "" then
    checkSingleNumeric rule.check.parameter rule.check config
  else if ¬ rule.check.parameters.isEmpty then
    firstNumericViolation rule.check config rule.check.parameters
  else (false, "")

/-- Embeds `rules.go` `checkMissingField`. -/
def checkMissingField (rule : Rule) (config : Config) : Bool × String :=
  let field := rule.check.field
  if ¬ config.HasField field then (true, field) else (false, "")

/-- Embeds `rules.go` `checkMissingFields`: any present field suppresses; when
every listed field is missing (vacuously so for an empty list), violate
with the comma-joined field list as location. -/
def checkMissingFields (rule : Rule) (config : Config) : Bool × String :=
  if rule.check.fields.any (fun field => config.HasField field) then (false, "")
  else (true, String.intercalate ", " rule.check.fields)

/-- Embeds `rules.go` `checkFieldExists`. -/
def checkFieldExists (rule : Rule) (config : Config) : Bool × String :=
  let field := rule.check.field
  if config.HasField field then (true, field) else (false, "")

/-- Embeds `rules.go` `checkCondition`: some candidate of the parameter
satisfies the operator. `greater_than` compares numerically (both sides
must coerce), `equals`/`not_equals` compare `%v` renderings; an unknown
operator never holds, and so does an absent parameter. -/
def checkCondition (condition : Condition) (config : Config) : Bool :=
  let values := config.GetAllFieldValues condition.parameter
  if values.isEmpty then false
  else values.any (fun val =>
    if condition.operator = "greater_than" then
      match toFloat val, toFloat condition.value with
      | some n, some threshold => decide (n > threshold)
      | _, _ => false
    else if condition.operator = "not_equals" then
      formatValue val != formatValue condition.value
    else if condition.operator = "equals" then
      formatValue val == formatValue condition.value
    else false)

/-- Embeds `rules.go` `checkCombinedConditions`, tallying loop: the satisfied
conditions in declaration order (Go appends `condition.Parameter` and
increments `metCount` in the same pass). -/
def satisfiedConditions (config : Config) : List Condition → List Condition
  | [] => []
  | c :: rest =>
      if checkCondition c config then c :: satisfiedConditions config rest
      else satisfiedConditions config rest

/-- Embeds `rules.go` `checkCombinedConditions`: aggregate the satisfied count
by `Require`; location is the comma-joined parameter names of the
satisfied conditions. -/
def checkCombinedConditions (rule : Rule) (config : Config) : Bool × String :=
  let sat := satisfiedConditions config rule.check.conditions
  let metCount := sat.length
  let loc := String.intercalate ", " (sat.map Condition.parameter)
  if rule.check.require = "all" then
    if metCount = rule.check.conditions.length then (true, loc) else (false, "")
  else if rule.check.require = "at_least_two" then
    if metCount ≥ 2 then (true, loc) else (false, "")
  else if rule.check.require = "both" then
    if metCount = 2 then (true, loc) else (false, "")
  else if rule.check.require = "any" then
    if metCount > 0 then (true, loc) else (false, "")
  else (false, "")

/-- Embeds `rules.go` `checkConditionalMissing`: at least one `HasAny` field
present and every `MissingAll` field absent. -/
def checkConditionalMissing (rule : Rule) (config : Config) : Bool × String :=
  if ¬ rule.check.hasAny.any (fun field => config.HasField field) then (false, "")
  else if rule.check.missingAll.any (fun field => config.HasField field) then (false, "")
  else (true, String.intercalate ", " rule.check.missingAll)

/-- Embeds `rules.go` `checkFieldCheck`: first listed field one of whose
candidates' `%v` rendering equals the rendering of a forbidden value. -/
def checkFieldCheck (rule : Rule) (config : Config) : Bool × String :=
  match rule.check.fields.find? (fun field =>
      (config.GetAllFieldValues field).any (fun val =>
        rule.check.values.any (fun checkVal =>
          formatValue val == formatValue checkVal))) with
  | some field => (true, field)
  | none => (false, "")

/-- Embeds `rules.go` `checkStopSequenceComplexity`, inner element loop: a
sequence element counts only when it is a string longer than
`maxLength` (`if str, ok := item.(string); ok { if len(str) > ... }`). -/
def stringTooLong (maxLength : Nat) : Value → Bool
  | .str s => decide (s.length > maxLength)
  | _ => false

/-- Embeds `rules.go` `checkStopSequenceComplexity`, per-candidate test: a
sequence candidate violates when `MaxSequences > 0` and its length
exceeds it, or when `MaxLength > 0` and some string element is longer; a
string candidate violates when `MaxLength > 0` and it is longer. -/
def stopSeqViolates (check : Check) : Value → Bool
  | .seq l =>
      (decide (check.maxSequences > 0) && decide (l.length > check.maxSequences)) ||
      (decide (check.maxLength > 0) && l.any (stringTooLong check.maxLength))
  | .str s => decide (check.maxLength > 0) && decide (s.length > check.maxLength)
  | _ => false

/-- Embeds `rules.go` `checkStopSequenceComplexity`: first violating candidate
of the named field wins, location is the field name. -/
def checkStopSequenceComplexity (rule : Rule) (config : Config) : Bool × String :=
  if (config.GetAllFieldValues rule.check.field).any (stopSeqViolates rule.check) then
    (true, rule.check.field)
  else (false, "")

/-- Embeds `rules.go` `checkPatternMatch`, inner candidate test: only a
string-typed candidate is tested against the patterns
(`if str, ok := val.(string); ok { ... }`). -/
def stringMatches (matchString : String → String → Bool)
    (patterns : List String) : Value → Bool
  | .str s => patterns.any (fun pattern => matchString pattern s)
  | _ => false

/-- Embeds `rules.go` `checkPatternMatch`: with a non-empty `Rule.Fields`, test
only string-typed candidates of the listed fields against every pattern,
first matching field wins; with empty `Fields`, match patterns against
the whole content corpus with location `"config content"`.
`matchString` stands for `regexp.MatchString`. -/
def checkPatternMatch (matchString : String → String → Bool) (rule : Rule)
    (config : Config) : Bool × String :=
  if ¬ rule.fields.isEmpty then
    match rule.fields.find? (fun field =>
        (config.GetAllFieldValues field).any
          (stringMatches matchString rule.check.patterns)) with
    | some field => (true, field)
    | none => (false, "")
  else
    let content := config.GetAllContent
    if rule.check.patterns.any (fun pattern => matchString pattern content) then
      (true, "config content")
    else (false, "")

/-- Embeds `rules.go` `CheckRule`, dispatch on `Check.Type`: `none` for an
unrecognized type (Go returns `nil` from the `default` arm before any
predicate runs). -/
def dispatch (matchString : String → String → Bool) (rule : Rule)
    (config : Config) : Option (Bool × String) :=
  if rule.check.type = "pattern_match" then some (checkPatternMatch matchString rule config)
  else if rule.check.type = "numeric_range" then some (checkNumericRange rule config)
  else if rule.check.type = "missing_field" then some (checkMissingField rule config)
  else if rule.check.type = "missing_fields" then some (checkMissingFields rule config)
  else if rule.check.type = "field_exists" then some (checkFieldExists rule config)
  else if rule.check.type = "combined_conditions" then some (checkCombinedConditions rule config)
  else if rule.check.type = "conditional_missing" then some (checkConditionalMissing rule config)
  else if rule.check.type = "field_check" then some (checkFieldCheck rule config)
  else if rule.check.type = "stop_sequence_complexity" then some (checkStopSequenceComplexity rule config)
  else none

/-- The `Finding` `CheckRule` builds from a violated rule and the
reported location. -/
def mkFinding (rule : Rule) (location : String) : Finding :=
  { ruleId := rule.id
    name := rule.name
    severity := rule.severity
    category := rule.category
    description := rule.description
    location := location
    recommendation := rule.recommendation
    references := rule.references }

/-- Embeds `rules.go` `CheckRule`: evaluate a rule against a config, yielding at
most one finding. -/
def CheckRule (matchString : String → String → Bool) (rule : Rule)
    (config : Config) : Option Finding :=
  match dispatch matchString rule config with
  | none => none
  | some (violated, location) =>
      if violated then some (mkFinding rule location) else none

/-! ## Helper lemmas -/

lemma checkRule_of_dispatch_false {ms : String → String → Bool} {rule : Rule}
    {config : Config} (h : dispatch ms rule config = some (false, "")) :
    CheckRule ms rule config = none := by
  unfold CheckRule
  rw [h]
  rfl

lemma numericViolates_eq_false_of (check : Check) (hmin : check.min = 0)
    (hmax : check.max = 0) (hcond : check.condition ≠ "any_value_exceeds")
    (v : Value) : numericViolates check v = false := by
  cases v <;> simp [numericViolates, hmin, hmax, hcond]

lemma checkSingleNumeric_eq_false (param : String) (check : Check) (config : Config)
    (hv : ∀ v ∈ config.GetAllFieldValues param, numericViolates check v = false) :
    checkSingleNumeric param check config = (false, "") := by
  have hany : (config.GetAllFieldValues param).any (numericViolates check) = false :=
    List.any_eq_false.mpr (fun v hmem => by rw [hv v hmem]; exact Bool.false_ne_true)
  simp only [checkSingleNumeric, hany]
  split <;> rfl

lemma firstNumericViolation_eq_false (check : Check) (config : Config)
    (ps : List String)
    (hv : ∀ p ∈ ps, checkSingleNumeric p check config = (false, "")) :
    firstNumericViolation check config ps = (false, "") := by
  induction ps with
  | nil => rfl
  | cons p rest ih =>
      rw [firstNumericViolation, hv p (List.mem_cons_self p rest)]
      exact ih (fun q hq => hv q (List.mem_cons_of_mem p hq))

lemma checkNumericRange_eq_false (rule : Rule) (config : Config)
    (hs : ∀ p, checkSingleNumeric p rule.check config = (false, "")) :
    checkNumericRange rule config = (false, "") := by
  unfold checkNumericRange
  split
  · exact hs rule.check.parameter
  · split
    · exact firstNumericViolation_eq_false rule.check config rule.check.parameters
        (fun p _ => hs p)
    · rfl

/-! ## C1 -/

/-- Rule and Config exhibiting that a `numeric_range` check with
`Min = 0` and `Max = 0` can still trigger via
`Condition = "any_value_exceeds"`. -/
def c1Rule : Rule :=
  { id := "C1"
    check := { type := "numeric_range", parameter := "temperature",
               min := 0, max := 0, condition := "any_value_exceeds" } }

def c1Cfg : Config := { data := [("temperature", Value.num 5)] }

/-- C1, counterexample: it is not the case that every `numeric_range`
rule with `Min = 0` and `Max = 0` yields no Finding whatever its other
fields: with `Condition = "any_value_exceeds"` and the numeric candidate
5, the rule `c1Rule` produces a Finding on `c1Cfg`. -/
theorem numeric_range_zero_bounds_claim_false :
    ¬ (∀ (ms : String → String → Bool) (rule : Rule) (config : Config),
        rule.check.type = "numeric_range" → rule.check.min = 0 →
        rule.check.max = 0 → CheckRule ms rule config = none) := by
  intro h
  have h5 := h (fun _ _ => false) c1Rule c1Cfg rfl rfl rfl
  have hv : CheckRule (fun _ _ => false) c1Rule c1Cfg =
      some (mkFinding c1Rule "temperature") := rfl
  rw [hv] at h5
  exact Option.noConfusion h5

/-- C1, amended: for every Config and every rule of kind `numeric_range`
whose Check has `Min = 0` and `Max = 0` and whose `Condition` is not
`"any_value_exceeds"`, evaluation yields no Finding. (The
`any_value_exceeds` branch of `checkSingleNumeric` applies the range
test unconditionally, so it can trigger even with both bounds zero.) -/
theorem numeric_range_zero_bounds_never_triggers
    (ms : String → String → Bool) (rule : Rule) (config : Config)
    (htype : rule.check.type = "numeric_range")
    (hmin : rule.check.min = 0) (hmax : rule.check.max = 0)
    (hcond : rule.check.condition ≠ "any_value_exceeds") :
    CheckRule ms rule config = none := by
  have hnv := numericViolates_eq_false_of rule.check hmin hmax hcond
  have hs : ∀ p, checkSingleNumeric p rule.check config = (false, "") :=
    fun p => checkSingleNumeric_eq_false p rule.check config (fun v _ => hnv v)
  have hr := checkNumericRange_eq_false rule config hs
  apply checkRule_of_dispatch_false
  simp [dispatch, htype, hr]

def c1aRule : Rule :=
  { id := "C1a"
    check := { type := "numeric_range", parameter := "temperature",
               min := 0, max := 0 } }

/-- Witness for C1 (amended) at a concrete input. -/
theorem numeric_range_zero_bounds_never_triggers_witness :
    c1aRule.check.type = "numeric_range" ∧ c1aRule.check.min = 0 ∧
    c1aRule.check.max = 0 ∧ c1aRule.check.condition ≠ "any_value_exceeds" ∧
    CheckRule (fun _ _ => false) c1aRule c1Cfg = none :=
  ⟨rfl, rfl, rfl, by decide,
    numeric_range_zero_bounds_never_triggers (fun _ _ => false) c1aRule c1Cfg
      rfl rfl rfl (by decide)⟩

/-! ## C2 -/

/-- Comparison predicate following the claim's wording: the key occurs
in some mapping at some depth of the tree, where the search descends
through nested mappings and also through elements of sequences. -/
inductive KeyAnywhere (field : String) : Value → Prop where
  | here (m : List (String × Value)) (v : Value)
      (hmem : (field, v) ∈ m) : KeyAnywhere field (Value.map m)
  | inMap (m : List (String × Value)) (k : String) (v : Value)
      (hmem : (k, v) ∈ m) (hsub : KeyAnywhere field v) :
      KeyAnywhere field (Value.map m)
  | inSeq (l : List Value) (v : Value)
      (hmem : v ∈ l) (hsub : KeyAnywhere field v) :
      KeyAnywhere field (Value.seq l)

/-- Characterization of what `hasFieldRecursive` actually searches: the
key occurs in some mapping reachable from the root by descending only
through mapping values (elements of sequences are not searched). -/
inductive KeyInTree (field : String) : Value → Prop where
  | here (m : List (String × Value)) (v : Value)
      (hmem : (field, v) ∈ m) : KeyInTree field (Value.map m)
  | nested (m : List (String × Value)) (k : String) (v : Value)
      (hmem : (k, v) ∈ m) (hsub : KeyInTree field v) :
      KeyInTree field (Value.map m)

def c2Cfg : Config :=
  { data := [("a", Value.seq [Value.map [("b", Value.num 1)]])] }

/-- C2, counterexample: `HasField` is not "the key occurs anywhere in
the tree including mappings inside sequences": the key `"b"` occurs in
a mapping that is an element of a sequence in `c2Cfg`, yet
`HasField "b"` is false. -/
theorem hasField_anywhere_claim_false :
    ¬ (∀ (c : Config) (f : String),
        c.HasField f = true ↔ KeyAnywhere f (Value.map c.data)) := by
  intro h
  have hk : KeyAnywhere "b" (Value.map c2Cfg.data) := by
    refine KeyAnywhere.inMap _ "a" (Value.seq [Value.map [("b", Value.num 1)]])
      (List.mem_cons_self _ _) ?_
    exact KeyAnywhere.inSeq _ _ (List.mem_cons_self _ _)
      (KeyAnywhere.here _ (Value.num 1) (List.mem_cons_self _ _))
  exact absurd ((h c2Cfg "b").mpr hk) (by decide)

lemma keyInTree_cons {f : String} {e : String × Value}
    {rest : List (String × Value)} (h : KeyInTree f (Value.map rest)) :
    KeyInTree f (Value.map (e :: rest)) := by
  cases h with
  | here m v hmem => exact KeyInTree.here _ v (List.mem_cons_of_mem e hmem)
  | nested m k v hmem hsub =>
      exact KeyInTree.nested _ k v (List.mem_cons_of_mem e hmem) hsub

lemma hasFieldM_iff (f : String) (m : List (String × Value)) :
    hasFieldM f m = true ↔ KeyInTree f (Value.map m) := by
  refine hasFieldM.induct f
    (fun v => hasFieldV f v = true ↔ KeyInTree f v)
    (fun m => hasFieldM f m = true ↔ KeyInTree f (Value.map m))
    ?_ ?_ ?_ ?_ m
  · intro m ih
    rw [show hasFieldV f (Value.map m) = hasFieldM f m from rfl]
    exact ih
  · intro t hnot
    cases t with
    | map m => exact (hnot m rfl).elim
    | str s => exact ⟨fun hv => by simp [hasFieldV] at hv, fun hk => by cases hk⟩
    | num q => exact ⟨fun hv => by simp [hasFieldV] at hv, fun hk => by cases hk⟩
    | bool b => exact ⟨fun hv => by simp [hasFieldV] at hv, fun hk => by cases hk⟩
    | null => exact ⟨fun hv => by simp [hasFieldV] at hv, fun hk => by cases hk⟩
    | seq l => exact ⟨fun hv => by simp [hasFieldV] at hv, fun hk => by cases hk⟩
  · constructor
    · intro hv
      simp [hasFieldM] at hv
    · intro hk
      cases hk with
      | here m v hmem => exact absurd hmem (List.not_mem_nil _)
      | nested m k v hmem hsub => exact absurd hmem (List.not_mem_nil _)
  · intro k v rest ih1 ih2
    rw [hasFieldM]
    constructor
    · intro hv
      rcases Bool.or_eq_true_iff.mp hv with hkv | htail
      · rcases Bool.or_eq_true_iff.mp hkv with hkf | hvv
        · have : k = f := eq_of_beq hkf
          subst this
          exact KeyInTree.here _ v (List.mem_cons_self _ _)
        · exact KeyInTree.nested _ k v (List.mem_cons_self _ _) (ih1.mp hvv)
      · exact keyInTree_cons (ih2.mp htail)
    · intro hk
      cases hk with
      | here m w hmem =>
          rcases List.mem_cons.mp hmem with heq | htail
          · have hk' : k = f := (Prod.mk.injEq _ _ _ _ ▸ heq.symm).1
            subst hk'
            simp
          · have : hasFieldM f rest = true :=
              ih2.mpr (KeyInTree.here _ w htail)
            simp [this]
      | nested m k' v' hmem hsub =>
          rcases List.mem_cons.mp hmem with heq | htail
          · have hv' : v' = v := (Prod.mk.injEq _ _ _ _ ▸ heq).2
            subst hv'
            simp [ih1.mpr hsub]
          · have : hasFieldM f rest = true :=
              ih2.mpr (KeyInTree.nested _ k' v' htail hsub)
            simp [this]

/-- C2, amended: `HasField name` is true exactly when some mapping
reachable from the root by descending only through mapping values
contains a key equal to `name`; a mapping occurring as an element of a
sequence is not searched. -/
theorem hasField_iff_keyInTree (c : Config) (f : String) :
    c.HasField f = true ↔ KeyInTree f (Value.map c.data) :=
  hasFieldM_iff f c.data

/-! ## C3 -/

/-- C3: for every Rule and Config, the `missing_field` predicate
violates exactly when the `field_exists` predicate on the same field
does not. -/
theorem missing_field_negates_field_exists (rule : Rule) (config : Config) :
    (checkMissingField rule config).1 = !(checkFieldExists rule config).1 := by
  cases hcase : config.HasField rule.check.field <;>
    simp [checkMissingField, checkFieldExists, hcase]

/-! ## C4 -/

lemma checkRule_of_dispatch_true {ms : String → String → Bool} {rule : Rule}
    {config : Config} {loc : String}
    (h : dispatch ms rule config = some (true, loc)) :
    CheckRule ms rule config = some (mkFinding rule loc) := by
  unfold CheckRule
  rw [h]
  rfl

def c4Rule : Rule := { id := "C4", check := { type := "missing_fields", fields := [] } }

def c4Cfg : Config := { data := [("model", Value.str "gpt-4")] }

/-- C4, counterexample: a `missing_fields` rule with an empty field list
is structurally incomplete, yet it yields a Finding on every config
(the suppression loop is vacuous, so the check always violates, with an
empty location). -/
theorem incomplete_check_claim_false :
    c4Rule.check.type = "missing_fields" ∧ c4Rule.check.fields = [] ∧
    CheckRule (fun _ _ => false) c4Rule c4Cfg = some (mkFinding c4Rule "") :=
  ⟨rfl, rfl, rfl⟩

/-- C4, amended: only the `numeric_range` instance of the claim holds.
A `numeric_range` rule with no `Parameter` and no `Parameters` yields no
Finding; but a `missing_fields` rule with an empty field list always
yields a Finding, a `missing_field` rule with an empty field name yields
a Finding whenever no key of the config equals the empty string, and a
`combined_conditions` rule with no conditions yields a Finding exactly
when `Require = "all"`. (Evaluation is total throughout, so no case
raises an error.) -/
theorem incomplete_check_degradation (ms : String → String → Bool)
    (rule : Rule) (config : Config) :
    (rule.check.type = "numeric_range" → rule.check.parameter = "" →
      rule.check.parameters = [] → CheckRule ms rule config = none) ∧
    (rule.check.type = "missing_fields" → rule.check.fields = [] →
      CheckRule ms rule config = some (mkFinding rule "")) ∧
    (rule.check.type = "missing_field" → rule.check.field = "" →
      config.HasField "" = false →
      CheckRule ms rule config = some (mkFinding rule "")) ∧
    (rule.check.type = "combined_conditions" → rule.check.conditions = [] →
      CheckRule ms rule config =
        (if rule.check.require = "all" then some (mkFinding rule "") else none)) := by
  refine ⟨?_, ?_, ?_, ?_⟩
  · intro ht hp hps
    apply checkRule_of_dispatch_false
    have hr : checkNumericRange rule config = (false, "") := by
      simp [checkNumericRange, hp, hps]
    simp [dispatch, ht, hr]
  · intro ht hf
    apply checkRule_of_dispatch_true
    have hr : checkMissingFields rule config = (true, "") := by
      simp [checkMissingFields, hf, String.intercalate]
    simp [dispatch, ht, hr]
  · intro ht hf hhas
    apply checkRule_of_dispatch_true
    have hr : checkMissingField rule config = (true, "") := by
      simp [checkMissingField, hf, hhas]
    simp [dispatch, ht, hr]
  · intro ht hc
    have hsat : satisfiedConditions config rule.check.conditions = [] := by
      rw [hc]; rfl
    by_cases hreq : rule.check.require = "all"
    · have hr : checkCombinedConditions rule config = (true, "") := by
        unfold checkCombinedConditions
        rw [hc, hreq]
        rfl
      rw [if_pos hreq]
      apply checkRule_of_dispatch_true
      simp [dispatch, ht, hr]
    · have hr : checkCombinedConditions rule config = (false, "") := by
        unfold checkCombinedConditions
        rw [hc]
        split_ifs with h1 h2 h3 <;> rfl
      rw [if_neg hreq]
      apply checkRule_of_dispatch_false
      simp [dispatch, ht, hr]

def c4aRule : Rule := { id := "C4a", check := { type := "numeric_range" } }

def c4bRule : Rule := { id := "C4b", check := { type := "missing_field" } }

def c4cRule : Rule :=
  { id := "C4c", check := { type := "combined_conditions", require := "any" } }

/-- Witness for C4 (amended) at concrete inputs. -/
theorem incomplete_check_degradation_witness :
    CheckRule (fun _ _ => false) c4aRule c4Cfg = none ∧
    CheckRule (fun _ _ => false) c4Rule c4Cfg = some (mkFinding c4Rule "") ∧
    CheckRule (fun _ _ => false) c4bRule c4Cfg = some (mkFinding c4bRule "") ∧
    CheckRule (fun _ _ => false) c4cRule c4Cfg = none :=
  ⟨(incomplete_check_degradation (fun _ _ => false) c4aRule c4Cfg).1 rfl rfl rfl,
   (incomplete_check_degradation (fun _ _ => false) c4Rule c4Cfg).2.1 rfl rfl,
   (incomplete_check_degradation (fun _ _ => false) c4bRule c4Cfg).2.2.1 rfl rfl rfl,
   by rw [(incomplete_check_degradation (fun _ _ => false) c4cRule c4Cfg).2.2.2 rfl rfl]; rfl⟩

/-! ## C5 -/

/-- The nine recognized check kinds of `rules.go` `CheckRule`. -/
def recognizedTypes : List String :=
  ["pattern_match", "numeric_range", "missing_field", "missing_fields",
   "field_exists", "combined_conditions", "conditional_missing",
   "field_check", "stop_sequence_complexity"]

/-- C5: a rule whose `Check.Type` is not one of the nine recognized
kinds yields no Finding (and, all functions being total, no error). -/
theorem unrecognized_type_yields_none (ms : String → String → Bool)
    (rule : Rule) (config : Config)
    (h : rule.check.type ∉ recognizedTypes) :
    CheckRule ms rule config = none := by
  simp only [recognizedTypes, List.mem_cons, List.not_mem_nil, or_false,
    not_or] at h
  obtain ⟨h1, h2, h3, h4, h5, h6, h7, h8, h9⟩ := h
  unfold CheckRule
  simp [dispatch, h1, h2, h3, h4, h5, h6, h7, h8, h9]

def c5Rule : Rule := { id := "C5", check := { type := "future_check" } }

def c5Cfg : Config := { data := [("model", Value.str "gpt-4")] }

/-- Witness for C5 at a concrete input. -/
theorem unrecognized_type_yields_none_witness :
    c5Rule.check.type ∉ recognizedTypes ∧
    CheckRule (fun _ _ => false) c5Rule c5Cfg = none :=
  ⟨by decide,
   unrecognized_type_yields_none (fun _ _ => false) c5Rule c5Cfg (by decide)⟩

/-! ## C6 -/

lemma satisfiedConditions_eq_filter (config : Config) (cs : List Condition) :
    satisfiedConditions config cs = cs.filter (fun c => checkCondition c config) := by
  induction cs with
  | nil => rfl
  | cons c rest ih =>
      rw [satisfiedConditions, List.filter_cons]
      by_cases hcc : checkCondition c config = true
      · simp [hcc, ih]
      · simp only [Bool.not_eq_true] at hcc
        simp [hcc, ih]

/-- C6: a `combined_conditions` rule violates exactly when the number
`k` of declared conditions satisfied by the config and the total number
`n` of declared conditions stand in the relation selected by `Require`
("all": `k = n`, "at_least_two": `k ≥ 2`, "both": `k = 2` exactly,
"any": `k ≥ 1`), and the resulting Finding's location is the
comma-joined parameter names of the satisfied conditions, in declaration
order. -/
theorem combined_conditions_spec (ms : String → String → Bool)
    (rule : Rule) (config : Config)
    (h : rule.check.type = "combined_conditions") :
    CheckRule ms rule config =
      (if (rule.check.require = "all" ∧
             (rule.check.conditions.filter (fun c => checkCondition c config)).length =
               rule.check.conditions.length) ∨
          (rule.check.require = "at_least_two" ∧
             2 ≤ (rule.check.conditions.filter (fun c => checkCondition c config)).length) ∨
          (rule.check.require = "both" ∧
             (rule.check.conditions.filter (fun c => checkCondition c config)).length = 2) ∨
          (rule.check.require = "any" ∧
             1 ≤ (rule.check.conditions.filter (fun c => checkCondition c config)).length)
       then some (mkFinding rule (String.intercalate ", "
              ((rule.check.conditions.filter (fun c => checkCondition c config)).map
                Condition.parameter)))
       else none) := by
  have hd : dispatch ms rule config = some (checkCombinedConditions rule config) := by
    simp [dispatch, h]
  unfold CheckRule
  rw [hd]
  unfold checkCombinedConditions
  rw [satisfiedConditions_eq_filter]
  by_cases h1 : rule.check.require = "all"
  · by_cases h2 : (rule.check.conditions.filter (fun c => checkCondition c config)).length =
        rule.check.conditions.length
    · simp [h1, h2]
    · simp [h1, h2]
  · by_cases h3 : rule.check.require = "at_least_two"
    · by_cases h4 : 2 ≤ (rule.check.conditions.filter (fun c => checkCondition c config)).length
      · simp [h1, h3, h4]
      · simp [h1, h3, h4]
    · by_cases h5 : rule.check.require = "both"
      · by_cases h6 : (rule.check.conditions.filter (fun c => checkCondition c config)).length = 2
        · simp [h1, h3, h5, h6]
        · simp [h1, h3, h5, h6]
      · by_cases h7 : rule.check.require = "any"
        · by_cases h8 : 1 ≤ (rule.check.conditions.filter (fun c => checkCondition c config)).length
          · have h8' : 0 < (rule.check.conditions.filter
                (fun c => checkCondition c config)).length := h8
            simp [h1, h3, h5, h7, h8, h8']
          · have h8' : ¬ 0 < (rule.check.conditions.filter
                (fun c => checkCondition c config)).length := h8
            simp [h1, h3, h5, h7, h8, h8']
        · simp [h1, h3, h5, h7]

def c6Rule : Rule :=
  { id := "C6"
    check := { type := "combined_conditions"
               conditions :=
                 [{ parameter := "temperature", operator := "greater_than",
                    value := Value.num (mkRat 9 10) },
                  { parameter := "top_p", operator := "greater_than",
                    value := Value.num (mkRat 95 100) },
                  { parameter := "top_k", operator := "greater_than",
                    value := Value.num 80 }]
               require := "at_least_two" } }

def c6Cfg : Config :=
  { data := [("temperature", Value.num (mkRat 3 2)),
             ("top_p", Value.num (mkRat 98 100)),
             ("top_k", Value.num 100)] }

/-- Witness for C6 at a concrete input: all three conditions hold, so
with `Require = "at_least_two"` the rule yields a Finding whose location
joins all three parameter names. -/
theorem combined_conditions_spec_witness :
    CheckRule (fun _ _ => false) c6Rule c6Cfg =
      some (mkFinding c6Rule "temperature, top_p, top_k") := by
  rw [combined_conditions_spec (fun _ _ => false) c6Rule c6Cfg rfl]
  rfl

/-! ## C7 -/

/-- Is the value one of the non-numeric scalar shapes (string, boolean,
null) that a numeric check must skip? -/
def isNonNumericScalar : Value → Bool
  | .str _ => true
  | .bool _ => true
  | .null => true
  | _ => false

lemma numericViolates_eq_false_of_nonNumeric (check : Check) (v : Value)
    (h : isNonNumericScalar v = true) : numericViolates check v = false := by
  cases v <;> first | rfl | simp [isNonNumericScalar] at h

/-- C7: a `numeric_range` rule in which every candidate value of the
named parameter(s) is of type string, boolean, or null yields no
Finding; non-numeric candidates never participate in the range test. -/
theorem numeric_range_type_safety (ms : String → String → Bool)
    (rule : Rule) (config : Config)
    (htype : rule.check.type = "numeric_range")
    (h1 : ∀ v ∈ config.GetAllFieldValues rule.check.parameter,
      isNonNumericScalar v = true)
    (h2 : ∀ p ∈ rule.check.parameters, ∀ v ∈ config.GetAllFieldValues p,
      isNonNumericScalar v = true) :
    CheckRule ms rule config = none := by
  apply checkRule_of_dispatch_false
  have hr : checkNumericRange rule config = (false, "") := by
    unfold checkNumericRange
    split
    · exact checkSingleNumeric_eq_false _ _ _
        (fun v hv => numericViolates_eq_false_of_nonNumeric _ v (h1 v hv))
    · split
      · refine firstNumericViolation_eq_false _ _ _ (fun p hp => ?_)
        exact checkSingleNumeric_eq_false _ _ _
          (fun v hv => numericViolates_eq_false_of_nonNumeric _ v (h2 p hp v hv))
      · rfl
  simp [dispatch, htype, hr]

def c7Rule : Rule :=
  { id := "C7"
    check := { type := "numeric_range", parameter := "temperature",
               parameters := ["top_p"], min := 0, max := 1 } }

def c7Cfg : Config :=
  { data := [("temperature", Value.str "high"), ("top_p", Value.bool true),
             ("extra", Value.null)] }

/-- Witness for C7 at a concrete input. -/
theorem numeric_range_type_safety_witness :
    (∀ v ∈ c7Cfg.GetAllFieldValues c7Rule.check.parameter,
      isNonNumericScalar v = true) ∧
    CheckRule (fun _ _ => false) c7Rule c7Cfg = none :=
  ⟨by decide,
   numeric_range_type_safety (fun _ _ => false) c7Rule c7Cfg rfl
     (by decide) (by decide)⟩

/-! ## C8 -/

def c8Rule : Rule :=
  { id := "C8"
    check := { type := "stop_sequence_complexity", field := "stop",
               maxSequences := 0, maxLength := 5 } }

def c8Cfg : Config := { data := [("stop", Value.seq [Value.str "a"])] }

/-- C8, counterexample: with `MaxSequences = 0` a non-empty sequence
candidate does NOT violate the check (the guard `MaxSequences > 0`
disables the length test entirely), contradicting the claim that any
non-empty sequence exceeds `MaxSequences = 0`. -/
theorem stop_sequence_claim_false :
    c8Rule.check.type = "stop_sequence_complexity" ∧
    c8Rule.check.maxSequences = 0 ∧
    c8Cfg.GetAllFieldValues "stop" = [Value.seq [Value.str "a"]] ∧
    CheckRule (fun _ _ => false) c8Rule c8Cfg = none :=
  ⟨rfl, rfl, rfl, rfl⟩

/-- Comparison predicate following the amended claim's wording: a
candidate violates when it is a sequence and either `MaxSequences` is
positive and the sequence is longer, or `MaxLength` is positive and some
string element is longer; or it is a string, `MaxLength` is positive and
the string is longer. -/
def stopSeqViolationSpec (check : Check) (v : Value) : Prop :=
  (∃ l, v = Value.seq l ∧
    ((0 < check.maxSequences ∧ check.maxSequences < l.length) ∨
     (0 < check.maxLength ∧
       ∃ item ∈ l, ∃ s, item = Value.str s ∧ check.maxLength < s.length))) ∨
  (∃ s, v = Value.str s ∧ 0 < check.maxLength ∧ check.maxLength < s.length)

lemma stringTooLong_iff (m : Nat) (item : Value) :
    stringTooLong m item = true ↔ ∃ s, item = Value.str s ∧ m < s.length := by
  cases item <;> simp [stringTooLong]

lemma stopSeqViolates_iff (check : Check) (v : Value) :
    stopSeqViolates check v = true ↔ stopSeqViolationSpec check v := by
  cases v <;>
    simp [stopSeqViolates, stopSeqViolationSpec, List.any_eq_true,
      stringTooLong_iff]

/-- C8, amended: the size tests of `stop_sequence_complexity` are active
only when the respective bound is positive. For a rule of this kind, a
Finding (at the named field) is produced exactly when some candidate of
the field is a sequence with `MaxSequences > 0` and more elements than
`MaxSequences`, or a sequence with `MaxLength > 0` and some string
element longer than `MaxLength`, or a string with `MaxLength > 0` and
longer than `MaxLength`; otherwise the result is no Finding. -/
theorem stop_sequence_spec (ms : String → String → Bool)
    (rule : Rule) (config : Config)
    (htype : rule.check.type = "stop_sequence_complexity") :
    (CheckRule ms rule config = some (mkFinding rule rule.check.field) ↔
      ∃ v ∈ config.GetAllFieldValues rule.check.field,
        stopSeqViolationSpec rule.check v) ∧
    (CheckRule ms rule config = none ↔
      ¬ ∃ v ∈ config.GetAllFieldValues rule.check.field,
        stopSeqViolationSpec rule.check v) := by
  have hd : dispatch ms rule config =
      some (checkStopSequenceComplexity rule config) := by
    simp [dispatch, htype]
  have hiff : (config.GetAllFieldValues rule.check.field).any
      (stopSeqViolates rule.check) = true ↔
      ∃ v ∈ config.GetAllFieldValues rule.check.field,
        stopSeqViolationSpec rule.check v := by
    rw [List.any_eq_true]
    exact exists_congr (fun v => and_congr_right
      (fun _ => stopSeqViolates_iff rule.check v))
  unfold CheckRule
  rw [hd]
  unfold checkStopSequenceComplexity
  by_cases hany : (config.GetAllFieldValues rule.check.field).any
      (stopSeqViolates rule.check) = true
  · simp only [hany, if_pos, ite_true]
    constructor
    · simp [hiff.mp hany]
    · simp [hiff.mp hany]
  · have hany' : (config.GetAllFieldValues rule.check.field).any
        (stopSeqViolates rule.check) = false := by
      cases hb : (config.GetAllFieldValues rule.check.field).any
          (stopSeqViolates rule.check)
      · rfl
      · exact absurd hb hany
    simp only [hany', Bool.false_eq_true, if_false, ite_false]
    constructor
    · simp [hiff.symm.not.mpr (hany' ▸ hany)]
    · simp [hiff.symm.not.mpr (hany' ▸ hany)]

def c8aRule : Rule :=
  { id := "C8a"
    check := { type := "stop_sequence_complexity", field := "stop",
               maxSequences := 3, maxLength := 0 } }

def c8aCfg : Config :=
  { data := [("stop", Value.seq [Value.str "a", Value.str "b",
                                 Value.str "c", Value.str "d"])] }

/-- Witness for C8 (amended) at a concrete input: four stop sequences
against `MaxSequences = 3` produce a Finding at the field. -/
theorem stop_sequence_spec_witness :
    CheckRule (fun _ _ => false) c8aRule c8aCfg =
      some (mkFinding c8aRule "stop") := by
  refine (stop_sequence_spec (fun _ _ => false) c8aRule c8aCfg rfl).1.mpr ?_
  refine ⟨Value.seq [Value.str "a", Value.str "b", Value.str "c", Value.str "d"],
    List.mem_cons_self _ _, Or.inl ⟨_, rfl, Or.inl ⟨by decide, by decide⟩⟩⟩

/-! ## C10 -/

/-- Is the value a string? -/
def Value.isStr : Value → Bool
  | .str _ => true
  | _ => false

lemma stringMatches_eq_false_of_not_str (ms : String → String → Bool)
    (patterns : List String) (v : Value) (h : v.isStr = false) :
    stringMatches ms patterns v = false := by
  cases v <;> first | rfl | simp [Value.isStr] at h

/-- C10: a `pattern_match` rule with a non-empty `Fields` list in which
no candidate value of the listed fields is a string yields no Finding,
whatever the regular-expression matcher does — non-string candidates are
never tested against the patterns. -/
theorem pattern_match_nonstring_silent (ms : String → String → Bool)
    (rule : Rule) (config : Config)
    (htype : rule.check.type = "pattern_match")
    (hf : rule.fields ≠ [])
    (hv : ∀ f ∈ rule.fields, ∀ v ∈ config.GetAllFieldValues f,
      v.isStr = false) :
    CheckRule ms rule config = none := by
  apply checkRule_of_dispatch_false
  have hr : checkPatternMatch ms rule config = (false, "") := by
    unfold checkPatternMatch
    have hne : ¬ rule.fields.isEmpty = true := by
      simp [List.isEmpty_iff, hf]
    rw [if_pos hne]
    have hfind : rule.fields.find? (fun field =>
        (config.GetAllFieldValues field).any
          (stringMatches ms rule.check.patterns)) = none := by
      rw [List.find?_eq_none]
      intro f hmem
      have : (config.GetAllFieldValues f).any
          (stringMatches ms rule.check.patterns) = false :=
        List.any_eq_false.mpr (fun v hv' => by
          rw [stringMatches_eq_false_of_not_str ms rule.check.patterns v
            (hv f hmem v hv')]
          exact Bool.false_ne_true)
      simp [this]
    rw [hfind]
  simp [dispatch, htype, hr]

def c10Rule : Rule :=
  { id := "C10"
    check := { type := "pattern_match", patterns := ["sk-.*"] }
    fields := ["temperature", "flags"] }

def c10Cfg : Config :=
  { data := [("temperature", Value.num 2), ("flags", Value.bool true),
             ("note", Value.str "sk-like text elsewhere")] }

/-- Witness for C10 at a concrete input, instantiated with the matcher
that matches everything: even then, no Finding arises from non-string
candidates. -/
theorem pattern_match_nonstring_silent_witness :
    c10Rule.fields ≠ [] ∧
    CheckRule (fun _ _ => true) c10Rule c10Cfg = none :=
  ⟨by decide,
   pattern_match_nonstring_silent (fun _ _ => true) c10Rule c10Cfg rfl
     (by decide) (by decide)⟩

end ParamGuard
